import Mathlib

/-!
Shallow embedding of elftools/elf/wasmfile.py (class WasmFile and its helper
functions) and a verification of spec-level properties about it.

Conventions used throughout:
  - a byte stream is a `List Nat` of byte values, read from the front;
  - Python text strings and byte strings are both modelled as byte lists
    (the module is written against the py3compat layer that identifies them);
  - a Python function that can raise is modelled as returning an `Option`,
    with `none` standing for the raised exception (ELFError, AssertionError,
    AttributeError, KeyError, struct.error, TypeError from ord of an empty
    read, and so on);
  - `stream.read(k)` on a Python binary stream returns at most `k` bytes and
    returns a short result, without error, when fewer remain; this is
    modelled with `List.take` / `List.drop`;
  - the zlib inflate routine is external to the file, so it enters the model
    as an explicit function argument `inflate`, the total map from a deflate
    byte stream to the inflated bytes it produces.
-/

namespace WasmModel

/-- Accumulation loop of `read_ULEB128`: the running value `acc` and the shift
count are threaded through; reading past end-of-stream fails, matching how
`ord(stream.read(1))` raises on an empty read in the source. -/
def readULEB128Aux : List Nat → Nat → Nat → Option (Nat × List Nat)
  | [], _, _ => none
  | curr :: rest, shifts, acc =>
    let acc2 := acc + ((curr &&& 127) <<< shifts)
    if curr &&& 128 = 0 then some (acc2, rest)
    else readULEB128Aux rest (shifts + 7) acc2

/-- `read_ULEB128` from wasmfile.py: decode an unsigned LEB128 integer from
the front of the stream, returning the value and the remaining stream. -/
def read_ULEB128 (s : List Nat) : Option (Nat × List Nat) :=
  readULEB128Aux s 0 0

/-- Worker for `encodeULEB128`, structurally recursive on a fuel bound so
that it reduces by kernel computation; any fuel at least `n` gives the
canonical encoding, since the value shrinks by a factor 128 each step. The
fuel-exhausted branch is unreachable from `encodeULEB128`. -/
def encodeULEB128Aux : Nat → Nat → List Nat
  | 0, n => [n % 128]
  | fuel + 1, n =>
    if n < 128 then [n]
    else (n % 128 + 128) :: encodeULEB128Aux fuel (n / 128)

/-- The canonical ULEB128 encoding of a natural number: 7 payload bits per
byte, high bit of a byte set exactly when more bytes follow. -/
def encodeULEB128 (n : Nat) : List Nat := encodeULEB128Aux n n

/-- `read_WasmString` from wasmfile.py together with the trailing read done at
its call site in `_read_sections`: decode the ULEB128 length prefix, take that
many bytes as the name, and return the rest of the payload as the data. A
short stream yields a short name without error, as `stream.read` does. -/
def read_WasmString (u : List Nat) : Option (List Nat × List Nat) :=
  (read_ULEB128 u).map (fun p => (p.2.take p.1, p.2.drop p.1))

/-- Worker for the chunk walk of `WasmFile._read_sections`, structurally
recursive on a fuel bound so that it reduces by kernel computation. Each
loop iteration consumes at least one byte (decoding a varint reads at least
one byte), so any fuel at least the stream length gives the value of the
source's while loop; `readSectionsAux_fuel` below proves the fuel-exhausted
branch unreachable from `readSections`. -/
def readSectionsAux : Nat → List Nat → Option (List (Nat × List Nat))
  | _, [] => some []
  | 0, _ :: _ => none
  | fuel + 1, b :: s0 =>
    match read_ULEB128 (b :: s0) with
    | none => none
    | some (code, s1) =>
      match read_ULEB128 s1 with
      | none => none
      | some (size, s2) =>
        match readSectionsAux fuel (s2.drop size) with
        | none => none
        | some rest => some ((code, s2.take size) :: rest)

/-- The chunk walk of `WasmFile._read_sections`: while bytes remain, read a
ULEB128 section code, a ULEB128 payload size, and then up to `size` payload
bytes (`stream.read(size)` returns short at end-of-file, without error). The
result lists `(code, payload)` pairs in file order. -/
def readSections (s : List Nat) : Option (List (Nat × List Nat)) :=
  readSectionsAux s.length s

/-- The `WasmSection` wrapper class: a name and raw data bytes; its header
dictionary is fixed as sh_size = length of the data, sh_offset = 0,
sh_addr = 0, so those values are exposed through accessor functions below
rather than stored. -/
structure WasmSec where
  name : List Nat
  data : List Nat
deriving Repr, DecidableEq

def WasmSec.sh_size (s : WasmSec) : Nat := s.data.length

def WasmSec.sh_offset (_ : WasmSec) : Nat := 0

def WasmSec.sh_addr (_ : WasmSec) : Nat := 0

/-- Python dict assignment `m[k] = v` on an association list representation:
any earlier binding of the key is dropped and the new binding appended. -/
def dictInsert (m : List (List Nat × WasmSec)) (k : List Nat) (v : WasmSec) :
    List (List Nat × WasmSec) :=
  m.filter (fun p => p.1 ≠ k) ++ [(k, v)]

/-- Python `m.get(k)` on the association list representation. -/
def dictGet (m : List (List Nat × WasmSec)) (k : List Nat) : Option WasmSec :=
  (m.find? (fun p => p.1 = k)).map (fun p => p.2)

/-- Python `k in m` on the association list representation. -/
def dictHasKey (m : List (List Nat × WasmSec)) (k : List Nat) : Bool :=
  m.any (fun p => p.1 = k)

/-- The custom-section indexing loop at the end of `_read_sections`: each
user-section payload is split into a length-prefixed name and trailing data
and stored in the map under its name, later entries overwriting earlier
ones. A payload whose length prefix cannot be decoded makes construction
fail. -/
def buildCustomMapAux : List (List Nat) → List (List Nat × WasmSec) →
    Option (List (List Nat × WasmSec))
  | [], m => some m
  | u :: rest, m =>
    match read_WasmString u with
    | none => none
    | some (nm, dat) => buildCustomMapAux rest (dictInsert m nm ⟨nm, dat⟩)

def buildCustomMap (users : List (List Nat)) :
    Option (List (List Nat × WasmSec)) :=
  buildCustomMapAux users []

/-- The fields of the segmented-family header record that the index-based
accessors read. The WasmFile constructor never produces one of these: the
`header` attribute of the Python object is never assigned. -/
structure HeaderRec where
  e_shnum : Nat
  e_shoff : Nat
  e_shentsize : Nat
  e_shstrndx : Nat
  e_phnum : Nat
  e_phoff : Nat
  e_phentsize : Nat
deriving Repr, DecidableEq

/-- The WasmFile object state after `__init__`. The `header` and `structs`
fields model the Python attributes of those names: `Option` because reading
an attribute that was never assigned raises AttributeError, and `__init__`
assigns neither (the ELFStructs collaborator that `structs` would hold is
external to this file, and is modelled as `Unit` because no code path can
ever reach it: every use first reads the unassigned attribute). -/
structure WasmFile where
  stream : List Nat
  version : List Nat
  section_name_map : List (Nat × List Nat)
  custom_section_name_map : List (List Nat × WasmSec)
  header : Option HeaderRec
  structs : Option Unit
deriving Repr, DecidableEq

def wasmMagic : List Nat := [0, 97, 115, 109]

/-- `WasmFile.__init__`: `_identify_file` checks the 4-byte magic and stores
the next 4 bytes as the version without checking them; `_read_sections` then
walks the chunks from the current position to the end of the file, and
indexes the user sections (code 0) by name. Looking up
`section_name_map[WasmSection.User]` raises KeyError when no user section
was seen. -/
def buildWasmFile (bytes : List Nat) : Option WasmFile :=
  if bytes.take 4 ≠ wasmMagic then none
  else
    match readSections (bytes.drop 8) with
    | none => none
    | some secs =>
      let users := (secs.filter (fun p => p.1 = 0)).map (fun p => p.2)
      if users.isEmpty then none
      else
        match buildCustomMap users with
        | none => none
        | some m =>
          some { stream := bytes, version := (bytes.drop 4).take 4,
                 section_name_map := secs, custom_section_name_map := m,
                 header := none, structs := none }

/-- `WasmFile.get_section_by_name`. -/
def get_section_by_name (f : WasmFile) (name : List Nat) : Option WasmSec :=
  dictGet f.custom_section_name_map name

/-- `WasmFile.num_sections` reads `self["e_shnum"]`, which goes through
`__getitem__` to the `header` attribute; reading it raises AttributeError
whenever the attribute was never assigned. -/
def num_sections (f : WasmFile) : Option Nat :=
  f.header.map (fun h => h.e_shnum)

/-- `WasmFile._section_offset`. -/
def section_offset (f : WasmFile) (n : Nat) : Option Nat :=
  f.header.map (fun h => h.e_shoff + n * h.e_shentsize)

/-- `WasmFile._get_section_header` parses a section header with
`self.structs.Elf_Shdr`; the attribute read of `structs` comes first and
raises when unassigned. The external struct parser itself (structs.py is an
out-of-scope collaborator) is unreachable in every constructed WasmFile,
because `__init__` never assigns `structs`, so its result is modelled as
`Unit`. -/
def get_section_header (f : WasmFile) (n : Nat) : Option Unit := do
  let _ ← f.structs
  let _ ← section_offset f n
  some ()

/-- `WasmFile.get_section`: after fetching the header, `_make_section` reads
`self._file_stringtable_section` (through `_get_section_name`), yet another
attribute that `__init__` never assigns, so it raises even in the
counterfactual case that a header were available. -/
def get_section (f : WasmFile) (n : Nat) : Option Unit := do
  let _ ← get_section_header f n
  none

/-- `WasmFile.iter_sections`: `range(self.num_sections())` evaluates the
count first, so the generator raises on its first step when `header` is
unassigned. The generator is modelled as the list of its results. -/
def iter_sections (f : WasmFile) : Option (List Unit) := do
  let k ← num_sections f
  (List.range k).mapM (get_section f)

/-- A segment view with the fields `address_offsets` reads. The `p_type`
field holds the parsed enum name as a byte string, compared against
"PT_LOAD" in the source. -/
structure Segment where
  p_type : List Nat
  p_vaddr : Nat
  p_filesz : Nat
  p_offset : Nat
deriving Repr, DecidableEq

def pt_load : List Nat := [80, 84, 95, 76, 79, 65, 68]

/-- `WasmFile.num_segments` reads `self["e_phnum"]`; same AttributeError
behavior as `num_sections`. -/
def num_segments (f : WasmFile) : Option Nat :=
  f.header.map (fun h => h.e_phnum)

/-- `WasmFile._segment_offset`. -/
def segment_offset (f : WasmFile) (n : Nat) : Option Nat :=
  f.header.map (fun h => h.e_phoff + n * h.e_phentsize)

/-- `WasmFile._get_segment_header` parses with `self.structs.Elf_Phdr`; the
read of the unassigned `structs` attribute raises first. The external parse
in the other branch is unreachable for every constructed WasmFile and is
modelled as failing. -/
def get_segment_header (f : WasmFile) (n : Nat) : Option Segment := do
  let _ ← f.structs
  let _ ← segment_offset f n
  none

/-- `WasmFile.get_segment` (`_make_segment` only wraps the parsed header, so
the model returns the header record itself). -/
def get_segment (f : WasmFile) (n : Nat) : Option Segment :=
  get_segment_header f n

/-- `WasmFile.iter_segments`. -/
def iter_segments (f : WasmFile) : Option (List Segment) := do
  let k ← num_segments f
  (List.range k).mapM (get_segment f)

/-- `WasmFile.address_offsets` (the Python default for `size` is 1): filter
the segments down to PT_LOAD segments whose span contains
[start, start + size) and yield the file offset of `start` in each. -/
def address_offsets (f : WasmFile) (start : Nat) (size : Nat) :
    Option (List Nat) := do
  let segs ← iter_segments f
  pure ((segs.filter (fun seg =>
      decide (seg.p_type = pt_load ∧ start ≥ seg.p_vaddr ∧
        start + size ≤ seg.p_vaddr + seg.p_filesz))).map
    (fun seg => start - seg.p_vaddr + seg.p_offset))

def nm_debug_info : List Nat := [46, 100, 101, 98, 117, 103, 95, 105, 110, 102, 111]

def nm_debug_aranges : List Nat := [46, 100, 101, 98, 117, 103, 95, 97, 114, 97, 110, 103, 101, 115]

def nm_debug_abbrev : List Nat := [46, 100, 101, 98, 117, 103, 95, 97, 98, 98, 114, 101, 118]

def nm_debug_str : List Nat := [46, 100, 101, 98, 117, 103, 95, 115, 116, 114]

def nm_debug_line : List Nat := [46, 100, 101, 98, 117, 103, 95, 108, 105, 110, 101]

def nm_debug_frame : List Nat := [46, 100, 101, 98, 117, 103, 95, 102, 114, 97, 109, 101]

def nm_debug_loc : List Nat := [46, 100, 101, 98, 117, 103, 95, 108, 111, 99]

def nm_debug_ranges : List Nat := [46, 100, 101, 98, 117, 103, 95, 114, 97, 110, 103, 101, 115]

def nm_debug_pubtypes : List Nat := [46, 100, 101, 98, 117, 103, 95, 112, 117, 98, 116, 121, 112, 101, 115]

def nm_debug_pubnames : List Nat := [46, 100, 101, 98, 117, 103, 95, 112, 117, 98, 110, 97, 109, 101, 115]

def nm_eh_frame : List Nat := [46, 101, 104, 95, 102, 114, 97, 109, 101]

def nm_zdebug_info : List Nat := [46, 122, 100, 101, 98, 117, 103, 95, 105, 110, 102, 111]

def nm_zdebug_aranges : List Nat := [46, 122, 100, 101, 98, 117, 103, 95, 97, 114, 97, 110, 103, 101, 115]

def nm_zdebug_abbrev : List Nat := [46, 122, 100, 101, 98, 117, 103, 95, 97, 98, 98, 114, 101, 118]

def nm_zdebug_str : List Nat := [46, 122, 100, 101, 98, 117, 103, 95, 115, 116, 114]

def nm_zdebug_line : List Nat := [46, 122, 100, 101, 98, 117, 103, 95, 108, 105, 110, 101]

def nm_zdebug_frame : List Nat := [46, 122, 100, 101, 98, 117, 103, 95, 102, 114, 97, 109, 101]

def nm_zdebug_loc : List Nat := [46, 122, 100, 101, 98, 117, 103, 95, 108, 111, 99]

def nm_zdebug_ranges : List Nat := [46, 122, 100, 101, 98, 117, 103, 95, 114, 97, 110, 103, 101, 115]

def nm_zdebug_pubtypes : List Nat := [46, 122, 100, 101, 98, 117, 103, 95, 112, 117, 98, 116, 121, 112, 101, 115]

def nm_zdebug_pubnames : List Nat := [46, 122, 100, 101, 98, 117, 103, 95, 112, 117, 98, 110, 97, 109, 101, 115]

def nm_wasm32 : List Nat := [119, 97, 115, 109, 51, 50]

def zlibTag : List Nat := [90, 76, 73, 66]

/-- `WasmFile.has_dwarf_info`: the chained Python `or` of the three lookups,
returning the first truthy operand (every WasmSection object is truthy) or
the final operand. -/
def has_dwarf_info (f : WasmFile) : Option WasmSec :=
  match get_section_by_name f nm_debug_info with
  | some s => some s
  | none =>
    match get_section_by_name f nm_zdebug_info with
    | some s => some s
    | none => get_section_by_name f nm_eh_frame

/-- `WasmFile.get_machine_arch`. -/
def get_machine_arch (_ : WasmFile) : List Nat := nm_wasm32

structure DebugSectionDescriptor where
  stream : List Nat
  name : List Nat
  global_offset : Nat
  size : Nat
  address : Nat
deriving Repr, DecidableEq

structure DwarfConfig where
  little_endian : Bool
  default_address_size : Nat
  machine_arch : List Nat
deriving Repr, DecidableEq

/-- The bundle handed to the external DWARF consumer: the record of keyword
arguments built at the end of `WasmFile.get_dwarf_info`. -/
structure DWARFInfo where
  config : DwarfConfig
  debug_info_sec : Option DebugSectionDescriptor
  debug_aranges_sec : Option DebugSectionDescriptor
  debug_abbrev_sec : Option DebugSectionDescriptor
  debug_frame_sec : Option DebugSectionDescriptor
  eh_frame_sec : Option DebugSectionDescriptor
  debug_str_sec : Option DebugSectionDescriptor
  debug_loc_sec : Option DebugSectionDescriptor
  debug_ranges_sec : Option DebugSectionDescriptor
  debug_line_sec : Option DebugSectionDescriptor
  debug_pubtypes_sec : Option DebugSectionDescriptor
  debug_pubnames_sec : Option DebugSectionDescriptor
deriving Repr, DecidableEq

/-- `WasmFile._read_dwarf_section`: copy the section data into an owned
stream, optionally applying relocations first. The relocation machinery is
an external collaborator, so it enters the model as the function argument
`relocFn` giving the relocated bytes of a section (or a failure); the size
recorded in the descriptor is the header sh_size, the length of the original
data. -/
def read_dwarf_section (relocFn : WasmSec → Option (List Nat))
    (relocate : Bool) (sec : WasmSec) : Option DebugSectionDescriptor :=
  (if relocate then relocFn sec else some sec.data).map (fun dat =>
    { stream := dat, name := sec.name, global_offset := sec.sh_offset,
      size := sec.sh_size, address := sec.sh_addr })

/-- `struct.unpack(">Q", b)` on exactly 8 bytes: the big-endian value. The
fold itself is total; the 8-byte length requirement is enforced at the call
site, as `struct.error` would be. -/
def beUnpack (l : List Nat) : Nat := l.foldl (fun a b => a * 256 + b) 0

/-- `struct.pack(">Q", n)` for n below 2 ^ 64. -/
def bePack8 (n : Nat) : List Nat :=
  [n / 2 ^ 56 % 256, n / 2 ^ 48 % 256, n / 2 ^ 40 % 256, n / 2 ^ 32 % 256,
   n / 2 ^ 24 % 256, n / 2 ^ 16 % 256, n / 2 ^ 8 % 256, n % 256]

/-- `WasmFile._decompress_dwarf_section`. The asserts become failures: the
declared descriptor size must exceed 12, the first four stream bytes must be
the ZLIB tag, the 8-byte size field must actually be readable (a shorter
read makes `struct.unpack` raise), and the inflated byte count must equal
the declared big-endian size. On success the descriptor keeps its name,
global_offset and address, and carries the inflated stream and its size. -/
def decompress_dwarf_section (inflate : List Nat → List Nat)
    (sec : DebugSectionDescriptor) : Option DebugSectionDescriptor :=
  if ¬ 12 < sec.size then none
  else if sec.stream.take 4 ≠ zlibTag then none
  else if ((sec.stream.drop 4).take 8).length ≠ 8 then none
  else
    let uncompressed_size := beUnpack ((sec.stream.drop 4).take 8)
    let out := inflate (sec.stream.drop 12)
    if uncompressed_size ≠ out.length then none
    else some { sec with stream := out, size := out.length }

/-- The compressed-name substitution in `get_dwarf_info`:
".z" + name[1:]. -/
def zVariant (nm : List Nat) : List Nat := [46, 122] ++ nm.drop 1

/-- The body of the per-name loop in `get_dwarf_info`: a missing section
maps to an empty slot, a present one is read into a descriptor and, when
the file is in compressed-name mode and the name starts with ".z",
decompressed (a decompression failure aborts the whole call). -/
def dwarfSlot (inflate : List Nat → List Nat)
    (relocFn : WasmSec → Option (List Nat)) (relocate : Bool) (f : WasmFile)
    (compressed : Bool) (nm : List Nat) :
    Option (Option DebugSectionDescriptor) :=
  match get_section_by_name f nm with
  | none => some none
  | some sec => do
    let d ← read_dwarf_section relocFn relocate sec
    if compressed ∧ nm.take 2 = [46, 122] then
      (decompress_dwarf_section inflate d).map some
    else
      some (some d)

/-- `WasmFile.get_dwarf_info`: compressed-name mode is decided by the
presence of ".zdebug_info"; the ten canonical names are substituted in that
mode and ".eh_frame" is appended unsubstituted; each name is resolved in
list order and the slots are packaged positionally into the bundle. -/
def get_dwarf_info (inflate : List Nat → List Nat)
    (relocFn : WasmSec → Option (List Nat)) (f : WasmFile)
    (relocate_dwarf_sections : Bool) : Option DWARFInfo := do
  let compressed := (get_section_by_name f nm_zdebug_info).isSome
  let v : List Nat → List Nat := fun nm => if compressed then zVariant nm else nm
  let slot := dwarfSlot inflate relocFn relocate_dwarf_sections f compressed
  let s_info ← slot (v nm_debug_info)
  let s_aranges ← slot (v nm_debug_aranges)
  let s_abbrev ← slot (v nm_debug_abbrev)
  let s_str ← slot (v nm_debug_str)
  let s_line ← slot (v nm_debug_line)
  let s_frame ← slot (v nm_debug_frame)
  let s_loc ← slot (v nm_debug_loc)
  let s_ranges ← slot (v nm_debug_ranges)
  let s_pubtypes ← slot (v nm_debug_pubtypes)
  let s_pubnames ← slot (v nm_debug_pubnames)
  let s_eh ← slot nm_eh_frame
  pure { config := { little_endian := true, default_address_size := 4,
                     machine_arch := nm_wasm32 },
         debug_info_sec := s_info, debug_aranges_sec := s_aranges,
         debug_abbrev_sec := s_abbrev, debug_frame_sec := s_frame,
         eh_frame_sec := s_eh, debug_str_sec := s_str,
         debug_loc_sec := s_loc, debug_ranges_sec := s_ranges,
         debug_line_sec := s_line, debug_pubtypes_sec := s_pubtypes,
         debug_pubnames_sec := s_pubnames }

/-- The minimal module-family file of the end-to-end scenario: magic `\0asm`,
version 01 00 00 00, and a single user section (code 0) whose payload is the
length-prefixed name ".debug_info" followed by the given bytes; the declared
chunk size 12 + N counts 1 byte of name length prefix, 11 name bytes and the
N payload bytes. -/
def c1File (payload : List Nat) : List Nat :=
  [0, 97, 115, 109, 1, 0, 0, 0] ++
    ([0] ++ (encodeULEB128 (12 + payload.length) ++
      ([11] ++ (nm_debug_info ++ payload))))

/-- The WasmFile value that construction from `c1File payload` produces. -/
def c1WasmFile (payload : List Nat) : WasmFile :=
  { stream := c1File payload, version := [1, 0, 0, 0],
    section_name_map := [(0, [11] ++ (nm_debug_info ++ payload))],
    custom_section_name_map := [(nm_debug_info, ⟨nm_debug_info, payload⟩)],
    header := none, structs := none }

/-- A well-formed user/custom chunk: code 0, a declared size equal to the
payload length, and a payload of length-prefixed name plus data. -/
def userChunk (nm d : List Nat) : List Nat :=
  encodeULEB128 0 ++
    (encodeULEB128 (encodeULEB128 nm.length ++ (nm ++ d)).length ++
      (encodeULEB128 nm.length ++ (nm ++ d)))

/-- A module-family file holding two user sections with the same embedded
name and different data. -/
def twoSecFile (nm d1 d2 : List Nat) : List Nat :=
  [0, 97, 115, 109, 1, 0, 0, 0] ++ (userChunk nm d1 ++ userChunk nm d2)

/-- The failure condition of Claim C4 exactly as the claim states it:
declared size not strictly above 12, wrong 4-byte tag, or inflated byte
count differing from the 8-byte big-endian declared size. Kept separate
from the source translation so the two can be compared. -/
def c4ClaimFailureCond (inflate : List Nat → List Nat)
    (sec : DebugSectionDescriptor) : Prop :=
  sec.size ≤ 12 ∨ sec.stream.take 4 ≠ zlibTag ∨
    (inflate (sec.stream.drop 12)).length
      ≠ beUnpack ((sec.stream.drop 4).take 8)

instance (inflate : List Nat → List Nat) (sec : DebugSectionDescriptor) :
    Decidable (c4ClaimFailureCond inflate sec) := by
  unfold c4ClaimFailureCond
  infer_instance

/-- Slot resolution under the compressed naming convention, as Claim C7
describes it: look the (compressed-variant) name up and decompress whatever
is found. -/
def zSlot (inflate : List Nat → List Nat)
    (relocFn : WasmSec → Option (List Nat)) (relocate : Bool) (f : WasmFile)
    (nm : List Nat) : Option (Option DebugSectionDescriptor) :=
  match get_section_by_name f nm with
  | none => some none
  | some sec => do
    let d ← read_dwarf_section relocFn relocate sec
    (decompress_dwarf_section inflate d).map some

/-- Slot resolution for a canonical, never-decompressed name, as Claim C7
describes it for the frame-unwind section. -/
def plainSlot (relocFn : WasmSec → Option (List Nat)) (relocate : Bool)
    (f : WasmFile) (nm : List Nat) : Option (Option DebugSectionDescriptor) :=
  match get_section_by_name f nm with
  | none => some none
  | some sec => (read_dwarf_section relocFn relocate sec).map some

/-- A concrete WasmFile whose custom-section map holds one ".zdebug_info"
entry carrying a well-formed compressed stream; used to instantiate the
compressed-name theorem. -/
def c7WitnessFile : WasmFile :=
  { stream := [], version := [], section_name_map := [],
    custom_section_name_map :=
      [(nm_zdebug_info, ⟨nm_zdebug_info, zlibTag ++ (bePack8 1 ++ [9])⟩)],
    header := none, structs := none }

theorem and127_eq_mod (b : Nat) : b &&& 127 = b % 128 := by
  have h : (127 : Nat) = 2 ^ 7 - 1 := by norm_num
  rw [h, Nat.and_pow_two_sub_one_eq_mod]

theorem and128_eq_zero_iff (b : Nat) : b &&& 128 = 0 ↔ b / 128 % 2 = 0 := by
  have h : (128 : Nat) = 2 ^ 7 := by norm_num
  rw [h, Nat.and_two_pow, Nat.testBit_to_div_mod]
  rcases Nat.mod_two_eq_zero_or_one (b / 2 ^ 7) with h2 | h2 <;> simp [h2]

/-- Decoding an encoded value from the front of a stream returns that value
(folded into the running accumulator) and leaves the trailing bytes alone. -/
theorem readULEB128Aux_encode : ∀ (fuel n : Nat), n ≤ fuel →
    ∀ (rest : List Nat) (shifts acc : Nat),
      readULEB128Aux (encodeULEB128Aux fuel n ++ rest) shifts acc
        = some (acc + n <<< shifts, rest) := by
  intro fuel
  induction fuel with
  | zero =>
    intro n hn rest shifts acc
    have hn0 : n = 0 := by omega
    subst hn0
    simp [encodeULEB128Aux, readULEB128Aux]
  | succ fuel ih =>
    intro n hn rest shifts acc
    rw [encodeULEB128Aux]
    by_cases h : n < 128
    · have hstop : n &&& 128 = 0 := by
        rw [and128_eq_zero_iff]
        omega
      have hpay : n &&& 127 = n := by
        rw [and127_eq_mod]
        omega
      simp [h, readULEB128Aux, hstop, hpay]
    · have hcont : ¬ (n % 128 + 128) &&& 128 = 0 := by
        rw [and128_eq_zero_iff]
        omega
      have hpay : (n % 128 + 128) &&& 127 = n % 128 := by
        rw [and127_eq_mod]
        omega
      have hdivle : n / 128 ≤ fuel := by
        have : n / 128 < n := Nat.div_lt_self (by omega) (by omega)
        omega
      have hrec := ih (n / 128) hdivle rest (shifts + 7)
        (acc + (n % 128) <<< shifts)
      simp only [h, if_false, List.cons_append, readULEB128Aux, hpay, hcont,
        if_neg hcont, hrec]
      have harith : acc + (n % 128) <<< shifts + (n / 128) <<< (shifts + 7)
          = acc + n <<< shifts := by
        simp only [Nat.shiftLeft_eq, pow_add]
        have hsplit : n % 128 * 2 ^ shifts + n / 128 * (2 ^ shifts * 2 ^ 7)
            = (n % 128 + 128 * (n / 128)) * 2 ^ shifts := by ring
        rw [Nat.add_assoc, hsplit, Nat.mod_add_div]
      rw [harith]

/-- Round trip of the varint codec, with trailing bytes preserved. -/
theorem read_ULEB128_encode (n : Nat) (rest : List Nat) :
    read_ULEB128 (encodeULEB128 n ++ rest) = some (n, rest) := by
  rw [read_ULEB128, encodeULEB128, readULEB128Aux_encode n n (Nat.le_refl n)]
  simp [Nat.shiftLeft_eq]

/-- Decoding a stream in which every byte has the continuation bit set fails
with end-of-stream, whatever the starting state. -/
theorem readULEB128Aux_all_high (l : List Nat) (hl : ∀ b ∈ l, b &&& 128 ≠ 0) :
    ∀ (shifts acc : Nat), readULEB128Aux l shifts acc = none := by
  induction l with
  | nil => intro shifts acc; rfl
  | cons b rest ih =>
    intro shifts acc
    have hb : b &&& 128 ≠ 0 := hl b (List.mem_cons_self b rest)
    simp only [readULEB128Aux, if_neg hb]
    exact ih (fun x hx => hl x (List.mem_cons_of_mem b hx)) _ _

/-- The stream left over by a successful varint decode is strictly shorter
than the input stream. -/
theorem readULEB128Aux_length (l : List Nat) :
    ∀ (shifts acc v : Nat) (r : List Nat),
      readULEB128Aux l shifts acc = some (v, r) → r.length < l.length := by
  induction l with
  | nil => intro shifts acc v r h; exact absurd h (by simp [readULEB128Aux])
  | cons b rest ih =>
    intro shifts acc v r h
    simp only [readULEB128Aux] at h
    by_cases hb : b &&& 128 = 0
    · rw [if_pos hb] at h
      cases h
      simp
    · rw [if_neg hb] at h
      have := ih _ _ _ _ h
      simp only [List.length_cons]
      omega

theorem read_ULEB128_length (l : List Nat) (v : Nat) (r : List Nat)
    (h : read_ULEB128 l = some (v, r)) : r.length < l.length :=
  readULEB128Aux_length l 0 0 v r h

/-- Fuel irrelevance: any fuel at least the stream length computes the same
walk, so `readSections` is the value of the source loop. -/
theorem readSectionsAux_fuel : ∀ (fuel1 : Nat) (s : List Nat) (fuel2 : Nat),
    s.length ≤ fuel1 → s.length ≤ fuel2 →
    readSectionsAux fuel1 s = readSectionsAux fuel2 s := by
  intro fuel1
  induction fuel1 with
  | zero =>
    intro s fuel2 h1 h2
    have hs : s = [] := by
      cases s with
      | nil => rfl
      | cons b s0 => simp at h1
    subst hs
    cases fuel2 <;> rfl
  | succ fuel ih =>
    intro s fuel2 h1 h2
    cases s with
    | nil => cases fuel2 <;> rfl
    | cons b s0 =>
      cases fuel2 with
      | zero => simp at h2
      | succ fuel2 =>
        simp only [readSectionsAux]
        cases hu1 : read_ULEB128 (b :: s0) with
        | none => rfl
        | some p1 =>
          obtain ⟨code, s1⟩ := p1
          dsimp only
          cases hu2 : read_ULEB128 s1 with
          | none => rfl
          | some p2 =>
            obtain ⟨size, s2⟩ := p2
            dsimp only
            have l1 : s1.length < (b :: s0).length := read_ULEB128_length _ _ _ hu1
            have l2 : s2.length < s1.length := read_ULEB128_length _ _ _ hu2
            have l3 : (s2.drop size).length ≤ s2.length := by
              simp [List.length_drop]
            simp only [List.length_cons] at h1 h2 l1
            rw [ih (s2.drop size) fuel2 (by omega) (by omega)]

theorem encodeULEB128_ne_nil (n : Nat) : encodeULEB128 n ≠ [] := by
  rw [encodeULEB128]
  cases n with
  | zero => simp [encodeULEB128Aux]
  | succ m =>
    rw [encodeULEB128Aux]
    by_cases h : m + 1 < 128 <;> simp [h]

/-- Unfolding of one loop iteration of the chunk walk. -/
theorem readSectionsAux_succ (fuel b : Nat) (s0 : List Nat) :
    readSectionsAux (fuel + 1) (b :: s0)
      = match read_ULEB128 (b :: s0) with
        | none => none
        | some (code, s1) =>
          match read_ULEB128 s1 with
          | none => none
          | some (size, s2) =>
            match readSectionsAux fuel (s2.drop size) with
            | none => none
            | some rest => some ((code, s2.take size) :: rest) := rfl

/-- One chunk at the head of the walk: an encoded code, an encoded declared
size, and the rest of the stream; the payload is whatever `take size`
returns (short at end-of-stream), and the walk continues past it. -/
theorem readSections_encode (c sz : Nat) (r : List Nat) :
    readSections (encodeULEB128 c ++ (encodeULEB128 sz ++ r))
      = (readSections (r.drop sz)).map (fun rest => (c, r.take sz) :: rest) := by
  have h1 : read_ULEB128 (encodeULEB128 c ++ (encodeULEB128 sz ++ r))
      = some (c, encodeULEB128 sz ++ r) := read_ULEB128_encode c _
  have h2 : read_ULEB128 (encodeULEB128 sz ++ r) = some (sz, r) :=
    read_ULEB128_encode sz r
  rcases he : encodeULEB128 c with _ | ⟨b, tl⟩
  · exact absurd he (encodeULEB128_ne_nil c)
  · rw [he] at h1
    simp only [List.cons_append] at h1
    rw [readSections]
    simp only [List.cons_append, List.length_cons]
    rw [readSectionsAux_succ, h1]
    dsimp only
    rw [h2]
    dsimp only
    have hszlen : (encodeULEB128 sz).length ≠ 0 := by
      simp [encodeULEB128_ne_nil sz]
    have hfuel : readSectionsAux (tl ++ (encodeULEB128 sz ++ r)).length (r.drop sz)
        = readSectionsAux (r.drop sz).length (r.drop sz) := by
      apply readSectionsAux_fuel
      · simp only [List.length_append, List.length_drop]
        omega
      · exact Nat.le_refl _
    rw [hfuel]
    rw [show readSections (r.drop sz)
        = readSectionsAux (r.drop sz).length (r.drop sz) from rfl]
    cases readSectionsAux (r.drop sz).length (r.drop sz) <;> rfl

/-- A single trailing chunk whose declared size covers the whole rest of the
stream: the walk returns exactly that one chunk. -/
theorem readSections_single (c sz : Nat) (r : List Nat) (h : r.length ≤ sz) :
    readSections (encodeULEB128 c ++ (encodeULEB128 sz ++ r)) = some [(c, r)] := by
  rw [readSections_encode, List.drop_eq_nil_of_le h, List.take_of_length_le h]
  rfl

theorem dictGet_singleton (a k : List Nat) (v : WasmSec) :
    dictGet [(a, v)] k = if a = k then some v else none := by
  by_cases h : a = k <;> simp [dictGet, List.find?, h]

theorem read_WasmString_c1 (payload : List Nat) :
    read_WasmString ([11] ++ (nm_debug_info ++ payload))
      = some (nm_debug_info, payload) := by
  rw [show ([11] : List Nat) = encodeULEB128 11 from by decide]
  rw [read_WasmString, read_ULEB128_encode]
  simp only [Option.map]
  rw [List.take_left' (by decide), List.drop_left' (by decide)]

theorem buildWasmFile_c1File (payload : List Nat) :
    buildWasmFile (c1File payload) = some (c1WasmFile payload) := by
  have hchunk : ([11] ++ (nm_debug_info ++ payload)).length
      ≤ 12 + payload.length := by
    simp [nm_debug_info]
    omega
  have hdrop : (c1File payload).drop 8
      = encodeULEB128 0 ++ (encodeULEB128 (12 + payload.length) ++
          ([11] ++ (nm_debug_info ++ payload))) := by
    rw [c1File,
      List.drop_left' (show ([0, 97, 115, 109, 1, 0, 0, 0] : List Nat).length = 8 from rfl),
      show ([0] : List Nat) = encodeULEB128 0 from by decide]
  have hsecs : readSections ((c1File payload).drop 8)
      = some [(0, [11] ++ (nm_debug_info ++ payload))] := by
    rw [hdrop, readSections_single 0 _ _ hchunk]
  have hmagic : (c1File payload).take 4 = wasmMagic := by
    rw [c1File]; rfl
  rw [buildWasmFile, hmagic]
  simp only [ne_eq, not_true_eq_false, if_false, ite_false]
  rw [hsecs]
  simp only [List.filter, decide_True, List.map, List.isEmpty]
  rw [show buildCustomMap [[11] ++ (nm_debug_info ++ payload)]
      = buildCustomMapAux [[11] ++ (nm_debug_info ++ payload)] [] from rfl]
  rw [buildCustomMapAux, read_WasmString_c1]
  rfl

theorem read_WasmString_encode (nm d : List Nat) :
    read_WasmString (encodeULEB128 nm.length ++ (nm ++ d)) = some (nm, d) := by
  rw [read_WasmString, read_ULEB128_encode]
  simp only [Option.map]
  rw [List.take_left, List.drop_left]

/-- Every success path of the constructor leaves the `header` and `structs`
attributes unassigned. -/
theorem buildWasmFile_unassigned (b : List Nat) (f : WasmFile)
    (h : buildWasmFile b = some f) : f.header = none ∧ f.structs = none := by
  simp only [buildWasmFile] at h
  split at h
  · exact absurd h (by simp)
  · split at h
    · exact absurd h (by simp)
    · split at h
      · exact absurd h (by simp)
      · split at h
        · exact absurd h (by simp)
        · injection h with h2
          rw [← h2]
          exact ⟨rfl, rfl⟩

theorem dictGet_isSome (m : List (List Nat × WasmSec)) (k : List Nat) :
    (dictGet m k).isSome = dictHasKey m k := by
  induction m with
  | nil => rfl
  | cons p rest ih =>
    by_cases h : p.1 = k
    · rw [dictGet, List.find?_cons_of_pos _ (by simp [h])]
      simp [dictHasKey, h]
    · rw [dictGet, List.find?_cons_of_neg _ (by simp [h])]
      have hstep : ((rest.find? (fun p => p.1 = k)).map (fun p => p.2)).isSome
          = (dictGet rest k).isSome := rfl
      rw [hstep, ih]
      simp [dictHasKey, List.any_cons, h]

theorem dwarfSlot_z (inflate : List Nat → List Nat)
    (relocFn : WasmSec → Option (List Nat)) (relocate : Bool) (f : WasmFile)
    (nm : List Nat) (h : nm.take 2 = [46, 122]) :
    dwarfSlot inflate relocFn relocate f true nm
      = zSlot inflate relocFn relocate f nm := by
  rw [dwarfSlot, zSlot]
  cases get_section_by_name f nm with
  | none => rfl
  | some sec => simp [h]

theorem dwarfSlot_eh (inflate : List Nat → List Nat)
    (relocFn : WasmSec → Option (List Nat)) (relocate : Bool) (f : WasmFile)
    (nm : List Nat) (h : ¬ nm.take 2 = [46, 122]) :
    dwarfSlot inflate relocFn relocate f true nm
      = plainSlot relocFn relocate f nm := by
  rw [dwarfSlot, plainSlot]
  cases get_section_by_name f nm with
  | none => rfl
  | some sec =>
    simp only [h, and_false, if_false, ite_false]
    cases read_dwarf_section relocFn relocate sec <;> rfl

theorem beUnpack_bePack8 (n : Nat) (h : n < 2 ^ 64) :
    beUnpack (bePack8 n) = n := by
  simp only [beUnpack, bePack8, List.foldl]
  norm_num
  omega

theorem buildWasmFile_twoSecFile (nm d1 d2 : List Nat) :
    buildWasmFile (twoSecFile nm d1 d2)
      = some { stream := twoSecFile nm d1 d2, version := [1, 0, 0, 0],
               section_name_map :=
                 [(0, encodeULEB128 nm.length ++ (nm ++ d1)),
                  (0, encodeULEB128 nm.length ++ (nm ++ d2))],
               custom_section_name_map := [(nm, ⟨nm, d2⟩)],
               header := none, structs := none } := by
  have hdrop : (twoSecFile nm d1 d2).drop 8
      = userChunk nm d1 ++ userChunk nm d2 := by
    rw [twoSecFile]
    exact List.drop_left' rfl
  have hsecs : readSections (userChunk nm d1 ++ userChunk nm d2)
      = some [(0, encodeULEB128 nm.length ++ (nm ++ d1)),
              (0, encodeULEB128 nm.length ++ (nm ++ d2))] := by
    rw [userChunk, List.append_assoc, List.append_assoc]
    rw [readSections_encode, List.take_left, List.drop_left]
    rw [userChunk, readSections_single 0 _ _ (Nat.le_refl _)]
    rfl
  have hmagic : (twoSecFile nm d1 d2).take 4 = wasmMagic := by
    rw [twoSecFile]
    rfl
  have hver : ((twoSecFile nm d1 d2).drop 4).take 4 = [1, 0, 0, 0] := by
    rw [twoSecFile]
    rfl
  rw [buildWasmFile, hmagic]
  simp only [ne_eq, not_true_eq_false, if_false, ite_false]
  rw [hdrop, hsecs]
  simp only [List.filter, decide_True, List.map, List.isEmpty, buildCustomMap,
    buildCustomMapAux, read_WasmString_encode, dictInsert, hver]
  simp [List.filter]

/-- Claim C1: for every N, a module-family file made of the magic, the
version 01 00 00 00 and exactly one user/custom section whose embedded
length-prefixed name is ".debug_info" and whose trailing payload is N
arbitrary bytes parses successfully, and get_dwarf_info with relocation
disabled returns a bundle whose debug_info slot is a descriptor holding
exactly those N bytes while every other debug slot is None. -/
theorem claim_c1_minimal_debug_info_roundtrip
    (inflate : List Nat → List Nat) (relocFn : WasmSec → Option (List Nat))
    (payload : List Nat) :
    (buildWasmFile (c1File payload)).bind
        (fun f => get_dwarf_info inflate relocFn f false)
      = some { config := { little_endian := true, default_address_size := 4,
                           machine_arch := nm_wasm32 },
               debug_info_sec := some { stream := payload,
                                        name := nm_debug_info,
                                        global_offset := 0,
                                        size := payload.length, address := 0 },
               debug_aranges_sec := none, debug_abbrev_sec := none,
               debug_frame_sec := none, eh_frame_sec := none,
               debug_str_sec := none, debug_loc_sec := none,
               debug_ranges_sec := none, debug_line_sec := none,
               debug_pubtypes_sec := none, debug_pubnames_sec := none } := by
  rw [buildWasmFile_c1File]
  rfl

/-- Claim C2: on every successfully constructed WasmFile, every index-based
accessor fails on every call, because the constructor never assigns the
header attribute read by the item accessor nor the structs attribute read by
the header parsers; the name-based machine-arch accessor keeps working. -/
theorem claim_c2_index_accessors_always_fail (b : List Nat) (f : WasmFile)
    (n : Nat) (h : buildWasmFile b = some f) :
    num_sections f = none ∧ get_section f n = none ∧
    iter_sections f = none ∧ num_segments f = none ∧
    get_segment f n = none ∧ iter_segments f = none ∧
    get_machine_arch f = nm_wasm32 := by
  obtain ⟨hh, hs⟩ := buildWasmFile_unassigned b f h
  refine ⟨?_, ?_, ?_, ?_, ?_, ?_, rfl⟩ <;>
    simp [num_sections, get_section, get_section_header, iter_sections,
      num_segments, get_segment, get_segment_header, iter_segments,
      section_offset, segment_offset, hh, hs]

/-- Witness for Claim C2 at the concrete minimal file. -/
theorem claim_c2_witness :
    num_sections (c1WasmFile []) = none ∧
    get_section (c1WasmFile []) 0 = none ∧
    iter_sections (c1WasmFile []) = none ∧
    num_segments (c1WasmFile []) = none ∧
    get_segment (c1WasmFile []) 0 = none ∧
    iter_segments (c1WasmFile []) = none ∧
    get_machine_arch (c1WasmFile []) = nm_wasm32 :=
  claim_c2_index_accessors_always_fail (c1File []) (c1WasmFile []) 0
    (by decide)

/-- Claim C3: decompressing a descriptor with declared size above 12 whose
stream is the ZLIB tag, the 8-byte big-endian length of the payload, and a
compressed encoding of the payload succeeds and yields a descriptor with
exactly the payload bytes, the payload length as size, and unchanged name,
global_offset and address. -/
theorem claim_c3_decompress_wellformed (inflate : List Nat → List Nat)
    (nm : List Nat) (goff sz addr : Nat) (P C : List Nat)
    (hsz : 12 < sz) (hP : P.length < 2 ^ 64) (hC : inflate C = P) :
    decompress_dwarf_section inflate
        ⟨zlibTag ++ (bePack8 P.length ++ C), nm, goff, sz, addr⟩
      = some ⟨P, nm, goff, P.length, addr⟩ := by
  have htake4 : (zlibTag ++ (bePack8 P.length ++ C)).take 4 = zlibTag :=
    List.take_left' rfl
  have hdrop4 : (zlibTag ++ (bePack8 P.length ++ C)).drop 4
      = bePack8 P.length ++ C := List.drop_left' rfl
  have htake8 : (bePack8 P.length ++ C).take 8 = bePack8 P.length :=
    List.take_left' rfl
  have hdrop12 : (zlibTag ++ (bePack8 P.length ++ C)).drop 12 = C := by
    rw [← List.append_assoc]
    exact List.drop_left' rfl
  have hlen8 : (bePack8 P.length).length = 8 := rfl
  simp only [decompress_dwarf_section, htake4, hdrop4, htake8, hdrop12, hC,
    hlen8, beUnpack_bePack8 P.length hP]
  simp [hsz]

/-- Witness for Claim C3 with a one-byte payload. -/
theorem claim_c3_witness :
    (12 < 13 ∧ ([7] : List Nat).length < 2 ^ 64 ∧
      (fun _ : List Nat => ([7] : List Nat)) [9] = [7]) ∧
    decompress_dwarf_section (fun _ : List Nat => ([7] : List Nat))
        ⟨zlibTag ++ (bePack8 ([7] : List Nat).length ++ [9]), [], 0, 13, 0⟩
      = some ⟨[7], [], 0, ([7] : List Nat).length, 0⟩ :=
  ⟨⟨by decide, by decide, rfl⟩,
    claim_c3_decompress_wellformed (fun _ => [7]) [] 0 13 0 [7] [9]
      (by decide) (by decide) rfl⟩

/-- Claim C4 counterexample: a descriptor with declared size 13 and the
correct ZLIB tag but a 6-byte stream, too short for the 8-byte size field,
makes decompression fail even though none of the three failure cases the
claim enumerates holds, so the enumeration is not exhaustive. -/
theorem claim_c4_counterexample :
    decompress_dwarf_section (fun _ : List Nat => ([] : List Nat))
        ⟨[90, 76, 73, 66, 0, 0], [], 0, 13, 0⟩ = none ∧
    ¬ c4ClaimFailureCond (fun _ : List Nat => ([] : List Nat))
        ⟨[90, 76, 73, 66, 0, 0], [], 0, 13, 0⟩ := by
  decide

/-- Claim C4 as amended: decompression fails exactly when the declared size
is at most 12, the first four stream bytes differ from the ZLIB tag, the
stream holds fewer than 12 bytes (so the 8-byte size field itself cannot be
read), or the inflated byte count differs from the declared big-endian
size; it never returns partial output. -/
theorem claim_c4_amended_failure_conditions (inflate : List Nat → List Nat)
    (sec : DebugSectionDescriptor) :
    (decompress_dwarf_section inflate sec = none)
      ↔ (sec.size ≤ 12 ∨ sec.stream.take 4 ≠ zlibTag ∨
         sec.stream.length < 12 ∨
         (inflate (sec.stream.drop 12)).length
           ≠ beUnpack ((sec.stream.drop 4).take 8)) := by
  have hlen : ((sec.stream.drop 4).take 8).length
      = min 8 (sec.stream.length - 4) := by
    simp [List.length_take, List.length_drop]
  simp only [decompress_dwarf_section]
  by_cases h1 : 12 < sec.size
  · rw [if_neg (not_not_intro h1)]
    by_cases h2 : sec.stream.take 4 = zlibTag
    · rw [if_neg (not_not_intro h2)]
      by_cases h3 : sec.stream.length < 12
      · rw [if_pos (by rw [hlen]; omega)]
        exact iff_of_true rfl (Or.inr (Or.inr (Or.inl h3)))
      · rw [if_neg (by rw [hlen]; omega)]
        by_cases h4 : (inflate (sec.stream.drop 12)).length
            = beUnpack ((sec.stream.drop 4).take 8)
        · rw [if_neg (by omega)]
          refine iff_of_false (by simp) ?_
          push_neg
          exact ⟨by omega, h2, by omega, h4⟩
        · rw [if_pos (by omega)]
          exact iff_of_true rfl (Or.inr (Or.inr (Or.inr h4)))
    · rw [if_pos h2]
      exact iff_of_true rfl (Or.inr (Or.inl h2))
  · rw [if_pos (by omega)]
    exact iff_of_true rfl (Or.inl (by omega))

/-- Claim C5: decoding the canonical ULEB128 encoding of any n in the
64-bit range returns n and consumes the whole encoding, and decoding a
truncated stream in which every byte has the continuation bit set fails. -/
theorem claim_c5_uleb128_roundtrip_and_truncated (n : Nat) (l : List Nat)
    (hn : n ≤ 2 ^ 64 - 1) (hl : ∀ b ∈ l, b &&& 128 ≠ 0) :
    read_ULEB128 (encodeULEB128 n) = some (n, []) ∧ read_ULEB128 l = none := by
  constructor
  · have h := read_ULEB128_encode n []
    simpa using h
  · exact readULEB128Aux_all_high l hl 0 0

/-- Witness for Claim C5 at n = 300 and the truncated stream 80 FF. -/
theorem claim_c5_witness :
    (300 ≤ 2 ^ 64 - 1 ∧ ∀ b ∈ [128, 255], b &&& 128 ≠ 0) ∧
    (read_ULEB128 (encodeULEB128 300) = some (300, []) ∧
      read_ULEB128 [128, 255] = none) :=
  ⟨⟨by decide, by decide⟩,
    claim_c5_uleb128_roundtrip_and_truncated 300 [128, 255]
      (by decide) (by decide)⟩

/-- Claim C6 counterexample: a chunk declaring 5 payload bytes while only
one byte remains is consumed without error: the walk terminates
successfully with the one-byte short payload instead of failing. -/
theorem claim_c6_counterexample :
    readSections [0, 5, 1] = some [(0, [1])] := by
  decide

/-- Claim C6 as amended: when a chunk's declared payload size exceeds the
number of bytes remaining in the stream, the walk reads just the remaining
bytes and terminates successfully with that short payload; it does not
fail. -/
theorem claim_c6_amended_short_payload (code size : Nat) (r : List Nat)
    (h : r.length < size) :
    readSections (encodeULEB128 code ++ (encodeULEB128 size ++ r))
      = some [(code, r)] :=
  readSections_single code size r (Nat.le_of_lt h)

/-- Witness for the amended Claim C6. -/
theorem claim_c6_witness :
    (([1] : List Nat).length < 5) ∧
    readSections (encodeULEB128 0 ++ (encodeULEB128 5 ++ [1]))
      = some [(0, [1])] :=
  ⟨by decide, claim_c6_amended_short_payload 0 5 [1] (by decide)⟩

/-- Claim C7: on a file without ".debug_info" but with ".zdebug_info",
get_dwarf_info resolves every canonical debug-section name to its ".z"
compressed variant and decompresses each such section found, except
".eh_frame", which is looked up under its canonical name and never
decompressed. -/
theorem claim_c7_compressed_name_resolution (inflate : List Nat → List Nat)
    (relocFn : WasmSec → Option (List Nat)) (f : WasmFile)
    (h1 : get_section_by_name f nm_debug_info = none)
    (h2 : (get_section_by_name f nm_zdebug_info).isSome = true) :
    get_dwarf_info inflate relocFn f false
      = (do
          let s_info ← zSlot inflate relocFn false f nm_zdebug_info
          let s_aranges ← zSlot inflate relocFn false f nm_zdebug_aranges
          let s_abbrev ← zSlot inflate relocFn false f nm_zdebug_abbrev
          let s_str ← zSlot inflate relocFn false f nm_zdebug_str
          let s_line ← zSlot inflate relocFn false f nm_zdebug_line
          let s_frame ← zSlot inflate relocFn false f nm_zdebug_frame
          let s_loc ← zSlot inflate relocFn false f nm_zdebug_loc
          let s_ranges ← zSlot inflate relocFn false f nm_zdebug_ranges
          let s_pubtypes ← zSlot inflate relocFn false f nm_zdebug_pubtypes
          let s_pubnames ← zSlot inflate relocFn false f nm_zdebug_pubnames
          let s_eh ← plainSlot relocFn false f nm_eh_frame
          pure { config := { little_endian := true, default_address_size := 4,
                             machine_arch := nm_wasm32 },
                 debug_info_sec := s_info, debug_aranges_sec := s_aranges,
                 debug_abbrev_sec := s_abbrev, debug_frame_sec := s_frame,
                 eh_frame_sec := s_eh, debug_str_sec := s_str,
                 debug_loc_sec := s_loc, debug_ranges_sec := s_ranges,
                 debug_line_sec := s_line, debug_pubtypes_sec := s_pubtypes,
                 debug_pubnames_sec := s_pubnames }) := by
  simp only [get_dwarf_info, h2, if_true,
    show zVariant nm_debug_info = nm_zdebug_info from by decide,
    show zVariant nm_debug_aranges = nm_zdebug_aranges from by decide,
    show zVariant nm_debug_abbrev = nm_zdebug_abbrev from by decide,
    show zVariant nm_debug_str = nm_zdebug_str from by decide,
    show zVariant nm_debug_line = nm_zdebug_line from by decide,
    show zVariant nm_debug_frame = nm_zdebug_frame from by decide,
    show zVariant nm_debug_loc = nm_zdebug_loc from by decide,
    show zVariant nm_debug_ranges = nm_zdebug_ranges from by decide,
    show zVariant nm_debug_pubtypes = nm_zdebug_pubtypes from by decide,
    show zVariant nm_debug_pubnames = nm_zdebug_pubnames from by decide]
  simp only [dwarfSlot_z inflate relocFn false f nm_zdebug_info (by decide),
    dwarfSlot_z inflate relocFn false f nm_zdebug_aranges (by decide),
    dwarfSlot_z inflate relocFn false f nm_zdebug_abbrev (by decide),
    dwarfSlot_z inflate relocFn false f nm_zdebug_str (by decide),
    dwarfSlot_z inflate relocFn false f nm_zdebug_line (by decide),
    dwarfSlot_z inflate relocFn false f nm_zdebug_frame (by decide),
    dwarfSlot_z inflate relocFn false f nm_zdebug_loc (by decide),
    dwarfSlot_z inflate relocFn false f nm_zdebug_ranges (by decide),
    dwarfSlot_z inflate relocFn false f nm_zdebug_pubtypes (by decide),
    dwarfSlot_z inflate relocFn false f nm_zdebug_pubnames (by decide),
    dwarfSlot_eh inflate relocFn false f nm_eh_frame (by decide)]

/-- Witness for Claim C7 at a concrete file holding only ".zdebug_info". -/
theorem claim_c7_witness :
    (get_section_by_name c7WitnessFile nm_debug_info = none ∧
      (get_section_by_name c7WitnessFile nm_zdebug_info).isSome = true) ∧
    get_dwarf_info (fun _ : List Nat => ([7] : List Nat)) (fun _ => none)
        c7WitnessFile false
      = (do
          let s_info ← zSlot (fun _ => [7]) (fun _ => none) false
            c7WitnessFile nm_zdebug_info
          let s_aranges ← zSlot (fun _ => [7]) (fun _ => none) false
            c7WitnessFile nm_zdebug_aranges
          let s_abbrev ← zSlot (fun _ => [7]) (fun _ => none) false
            c7WitnessFile nm_zdebug_abbrev
          let s_str ← zSlot (fun _ => [7]) (fun _ => none) false
            c7WitnessFile nm_zdebug_str
          let s_line ← zSlot (fun _ => [7]) (fun _ => none) false
            c7WitnessFile nm_zdebug_line
          let s_frame ← zSlot (fun _ => [7]) (fun _ => none) false
            c7WitnessFile nm_zdebug_frame
          let s_loc ← zSlot (fun _ => [7]) (fun _ => none) false
            c7WitnessFile nm_zdebug_loc
          let s_ranges ← zSlot (fun _ => [7]) (fun _ => none) false
            c7WitnessFile nm_zdebug_ranges
          let s_pubtypes ← zSlot (fun _ => [7]) (fun _ => none) false
            c7WitnessFile nm_zdebug_pubtypes
          let s_pubnames ← zSlot (fun _ => [7]) (fun _ => none) false
            c7WitnessFile nm_zdebug_pubnames
          let s_eh ← plainSlot (fun _ => none) false c7WitnessFile nm_eh_frame
          pure { config := { little_endian := true, default_address_size := 4,
                             machine_arch := nm_wasm32 },
                 debug_info_sec := s_info, debug_aranges_sec := s_aranges,
                 debug_abbrev_sec := s_abbrev, debug_frame_sec := s_frame,
                 eh_frame_sec := s_eh, debug_str_sec := s_str,
                 debug_loc_sec := s_loc, debug_ranges_sec := s_ranges,
                 debug_line_sec := s_line, debug_pubtypes_sec := s_pubtypes,
                 debug_pubnames_sec := s_pubnames }) :=
  ⟨⟨by decide, by decide⟩,
    claim_c7_compressed_name_resolution (fun _ => [7]) (fun _ => none)
      c7WitnessFile (by decide) (by decide)⟩

/-- Claim C8: the debug-information presence probe is truthy exactly when at
least one of ".debug_info", ".zdebug_info", ".eh_frame" is a key of the
custom-section map. -/
theorem claim_c8_has_dwarf_info_iff (f : WasmFile) :
    (has_dwarf_info f).isSome
      = (dictHasKey f.custom_section_name_map nm_debug_info ||
         dictHasKey f.custom_section_name_map nm_zdebug_info ||
         dictHasKey f.custom_section_name_map nm_eh_frame) := by
  rw [← dictGet_isSome, ← dictGet_isSome, ← dictGet_isSome, has_dwarf_info]
  simp only [get_section_by_name]
  cases h1 : dictGet f.custom_section_name_map nm_debug_info <;>
    cases h2 : dictGet f.custom_section_name_map nm_zdebug_info <;>
      cases h3 : dictGet f.custom_section_name_map nm_eh_frame <;>
        simp [h1, h2, h3]

/-- Claim C9 evidence of the code bug: on a successfully constructed
WasmFile, address_offsets raises on its first step (iter_segments reads the
never-assigned header attribute) instead of yielding one offset per
containing load segment as the claim describes. -/
theorem claim_c9_address_offsets_raises :
    (buildWasmFile (c1File [])).map (fun f => address_offsets f 0 1)
      = some none := by
  decide

/-- Claim C10: a file carrying two user sections with the same embedded name
constructs successfully and name lookup retrieves only the section that
appears later in the file. -/
theorem claim_c10_last_section_wins (nm d1 d2 : List Nat) :
    (buildWasmFile (twoSecFile nm d1 d2)).map
        (fun f => get_section_by_name f nm)
      = some (some ⟨nm, d2⟩) := by
  rw [buildWasmFile_twoSecFile]
  simp [get_section_by_name, dictGet_singleton]

end WasmModel
